import Mathlib

/-!
Verification of the insinuante-api order-checkout and address routes.

The server is an Express application backed by Prisma over PostgreSQL.
We embed the relevant tables as a state record `DB` and each route
handler as a state-passing function.  Prisma generated identifiers
(cuid strings) are modelled as counters: the only property the code
relies on is that each created row receives a fresh identifier.
Monetary values (price, total) are only ever copied by the routes under
study, never computed with, so `Int` is used as their stand-in; the
quantity field participates in stock arithmetic and is `Int`, matching
the unchecked JSON number the handler receives.  A missing JSON field
(`undefined` in the source) is modelled with `Option`: calling `.map`
on a missing collection throws a TypeError, which the surrounding
try/catch turns into a 500 response.
-/

namespace Insinuante

/-- Row of the `product` table: the fields the handlers in scope read or
write.  The free-form `variations` JSON column is kept as an opaque
string. -/
structure Product where
  name : String
  description : String
  price : Int
  stock : Int
  sold : Int
  category : String
  image : String
  images : List String
  variations : String
  shopId : String
  deriving Repr, DecidableEq

/-- Row of the `order` table (scalar columns).  The creation timestamp
is omitted: no handler under study reads it. -/
structure OrderRec where
  id : Nat
  customerId : String
  total : Int
  paymentMethod : String
  addressId : String
  status : String
  deriving Repr, DecidableEq

/-- Row of the `orderItem` table, created by the nested
`items.create` of both POST /orders handlers. -/
structure OrderItemRec where
  orderId : Nat
  productId : String
  name : String
  quantity : Int
  price : Int
  image : String
  deriving Repr, DecidableEq

/-- Row of the `address` table. -/
structure AddressRec where
  id : Nat
  userId : String
  zipCode : String
  street : String
  number : String
  complement : String
  neighborhood : String
  city : String
  state : String
  isPrimary : Bool
  deriving Repr, DecidableEq

/-- Row of the `user` table (the fields POST /auth/register writes that
the claims mention). -/
structure UserRec where
  id : String
  name : String
  email : String
  password : String
  role : String
  deriving Repr, DecidableEq

/-- Row of the `shop` table, nested-created by POST /auth/register. -/
structure ShopRec where
  ownerId : String
  name : String
  description : String
  image : String
  deriving Repr, DecidableEq

/-- Database state: the product table is a map keyed by the unique
product id (Prisma `where: ⟨id⟩` lookups), the remaining tables are row
lists; `nextOrderId` and `nextAddressId` model the generated-identifier
sequences. -/
structure DB where
  products : String → Option Product
  orders : List OrderRec
  orderItems : List OrderItemRec
  addresses : List AddressRec
  users : List UserRec
  shops : List ShopRec
  nextOrderId : Nat
  nextAddressId : Nat

/-- One element of the `items` array of a POST /orders body:
`⟨ id, name, quantity, price, image ⟩`. -/
structure ReqItem where
  id : String
  name : String
  quantity : Int
  price : Int
  image : String
  deriving Repr, DecidableEq

/-- POST /orders request body.  `items = none` models a body whose
`items` field is absent. -/
structure OrderReq where
  customerId : String
  total : Int
  paymentMethod : String
  addressId : String
  items : Option (List ReqItem)
  deriving Repr, DecidableEq

/-- Body of a POST /orders response: on success the serialized order
row, together with the nested item rows exactly when the Prisma call
carried `include: ⟨ items: true ⟩`; on failure the error message. -/
inductive OrderBody where
  | success (order : OrderRec) (includedItems : Option (List OrderItemRec))
  | failure (message : String)
  deriving Repr, DecidableEq

/-- Result of running a handler: HTTP status, response body, and the
database state afterwards. -/
structure HttpResult where
  status : Nat
  body : OrderBody
  db : DB

/-- The `tx.order.create` call of POST /orders: inserts one order row
with status "A Enviar" and one `orderItem` row per element of `items`,
each carrying the caller-supplied snapshot fields.  Returns the created
order row and the created item rows. -/
def orderCreate (db : DB) (req : OrderReq) (its : List ReqItem) :
    OrderRec × List OrderItemRec × DB :=
  let order : OrderRec :=
    { id := db.nextOrderId
      customerId := req.customerId
      total := req.total
      paymentMethod := req.paymentMethod
      addressId := req.addressId
      status := "A Enviar" }
  let newItems : List OrderItemRec := its.map fun it =>
    { orderId := order.id
      productId := it.id
      name := it.name
      quantity := it.quantity
      price := it.price
      image := it.image }
  (order, newItems,
    { db with
      orders := db.orders ++ [order]
      orderItems := db.orderItems ++ newItems
      nextOrderId := db.nextOrderId + 1 })

/-- The `tx.product.update` call of POST /orders: decrement `stock` and
increment `sold` of the product with the given id by the given
quantity.  Prisma throws (error P2025) when no row has the id, which
`none` models. -/
def productStockUpdate (db : DB) (pid : String) (q : Int) : Option DB :=
  (db.products pid).map fun p =>
    { db with
      products := fun k =>
        if k = pid then some { p with stock := p.stock - q, sold := p.sold + q }
        else db.products k }

/-- The `for (const item of items)` loop of POST /orders: update the
referenced product of every item in order, aborting at the first
missing product. -/
def updateAllStocks (db : DB) (its : List ReqItem) : Option DB :=
  match its with
  | [] => some db
  | it :: rest =>
    (productStockUpdate db it.id it.quantity).bind fun db1 =>
      updateAllStocks db1 rest

/-- The callback passed to `prisma.$transaction` in the web POST /orders
handler: create the order with its items, then update every referenced
product.  `none` is a thrown error (missing `items` field raises a
TypeError at `items.map`; a missing product raises P2025). -/
def placeOrderTxBody (db : DB) (req : OrderReq) : Option (OrderRec × DB) :=
  req.items.bind fun its =>
    (updateAllStocks (orderCreate db req its).2.2 its).map fun db2 =>
      ((orderCreate db req its).1, db2)

/-- The web POST /orders handler: run the transaction callback; on
success answer 201 with the created order row (the create call has no
`include`, so the response carries no nested items); on any thrown
error the transaction is rolled back and the handler answers 500. -/
def placeOrderWeb (db : DB) (req : OrderReq) : HttpResult :=
  match placeOrderTxBody db req with
  | some (order, db2) => { status := 201, body := .success order none, db := db2 }
  | none =>
    { status := 500
      body := .failure "Erro ao processar pagamento ou falta de estoque."
      db := db }

/-- The mobile POST /orders handler: a single `prisma.order.create` with
nested `items.create` and `include: ⟨ items: true ⟩`; no product row is
touched.  A missing `items` field throws before the create and yields a
500 with no mutation. -/
def placeOrderMobile (db : DB) (req : OrderReq) : HttpResult :=
  match req.items with
  | none => { status := 500, body := .failure "Erro ao fechar pedido", db := db }
  | some its =>
    { status := 201
      body := .success (orderCreate db req its).1 (some (orderCreate db req its).2.1)
      db := (orderCreate db req its).2.2 }

/-- The PUT /products/:id handler: overwrite the catalog fields of one
product row; the order tables are untouched.  Fails (500, no mutation)
when the id does not exist. -/
def productCatalogUpdate (db : DB) (pid : String)
    (name description : String) (price stock : Int) (category : String)
    (images : List String) (variations : String) : Nat × DB :=
  match db.products pid with
  | none => (500, db)
  | some p => (200,
      { db with
        products := fun k =>
          if k = pid then some
            { p with
              name := name
              description := description
              price := price
              stock := stock
              category := category
              images := images
              image := images.headD "https://placehold.co/400"
              variations := variations }
          else db.products k })

/-- The `prisma.address.updateMany` clearing step shared by
POST /addresses and PUT /addresses/:id: set `isPrimary` to false on
every address of the given user. -/
def clearPrimaries (addrs : List AddressRec) (userId : String) :
    List AddressRec :=
  addrs.map fun a => if a.userId = userId then { a with isPrimary := false } else a

/-- The POST /addresses handler: when the body says `isPrimary` (the
source coerces with a double negation, which on a boolean is the
identity) first clear `isPrimary` on all addresses of the body user,
then insert the new address; it answers 201 with the created row. -/
def postAddress (db : DB) (userId zipCode street number complement
    neighborhood city state : String) (isPrimary : Bool) :
    AddressRec × DB :=
  let cleared := if isPrimary then clearPrimaries db.addresses userId else db.addresses
  let newAddr : AddressRec :=
    { id := db.nextAddressId
      userId := userId
      zipCode := zipCode
      street := street
      number := number
      complement := complement
      neighborhood := neighborhood
      city := city
      state := state
      isPrimary := isPrimary }
  (newAddr,
    { db with
      addresses := cleared ++ [newAddr]
      nextAddressId := db.nextAddressId + 1 })

/-- The `prisma.address.update` call of PUT /addresses/:id: overwrite
every body field of the row with the given id except `userId`, which is
not in its `data`; throw (500, nothing further changed) when no row has
the id. -/
def addressUpdate (db : DB) (id : Nat) (zipCode street number complement
    neighborhood city state : String) (isPrimary : Bool) : Nat × DB :=
  if db.addresses.any (fun a => a.id = id) then
    (200,
      { db with
        addresses := db.addresses.map fun a =>
          if a.id = id then
            { a with
              zipCode := zipCode
              street := street
              number := number
              complement := complement
              neighborhood := neighborhood
              city := city
              state := state
              isPrimary := isPrimary }
          else a })
  else (500, db)

/-- The PUT /addresses/:id handler.  The clearing `updateMany` and the
`update` are two separate Prisma calls with no surrounding transaction:
when the target id does not exist the update throws (500) but the
clearing has already been persisted. -/
def putAddress (db : DB) (id : Nat) (zipCode street number complement
    neighborhood city state : String) (isPrimary : Bool)
    (userId : String) : Nat × DB :=
  addressUpdate
    { db with
      addresses :=
        if isPrimary then clearPrimaries db.addresses userId
        else db.addresses }
    id zipCode street number complement neighborhood city state isPrimary

/-- User part of a POST /auth/register body; `name = ""` is the falsy
value the guard `!userData.name` rejects. -/
structure UserData where
  name : String
  email : String
  password : String
  role : String
  deriving Repr, DecidableEq

/-- Address part of a POST /auth/register body. -/
structure AddressData where
  cep : String
  street : String
  number : String
  complement : String
  neighborhood : String
  city : String
  state : String
  deriving Repr, DecidableEq

/-- Shop part of a POST /auth/register body. -/
structure ShopData where
  name : String
  description : String
  image : String
  deriving Repr, DecidableEq

/-- The POST /auth/register handler.  `uid` is the ORM-generated
identifier of the new user (a fresh cuid in the source, passed in here
explicitly).  A missing `userData` or empty name is rejected with 400
before any store access; a missing `addressData` raises a TypeError at
`addressData.cep` which the catch turns into a 400 with the nested
create rolled back; a duplicate email makes the create throw its unique
constraint error (the catch message points at the email), likewise 400
with no mutation.  On success one user row, one address row with
`isPrimary := true`, and, when `shopData` is present, one shop row are
inserted together. -/
def registerUser (db : DB) (uid : String) (userData : Option UserData)
    (addressData : Option AddressData) (shopData : Option ShopData) :
    Nat × DB :=
  match userData, addressData with
  | none, _ => (400, db)
  | some _, none => (400, db)
  | some u, some a =>
    if u.name = "" then (400, db)
    else if db.users.any (fun w => w.email = u.email) then (400, db)
    else
          let newUser : UserRec :=
            { id := uid
              name := u.name
              email := u.email
              password := u.password
              role := if u.role = "" then "SELLER" else u.role }
          let newAddr : AddressRec :=
            { id := db.nextAddressId
              userId := uid
              zipCode := a.cep
              street := a.street
              number := a.number
              complement := a.complement
              neighborhood := a.neighborhood
              city := a.city
              state := a.state
              isPrimary := true }
          let newShops :=
            match shopData with
            | none => []
            | some s => [{ ownerId := uid, name := s.name,
                           description := s.description,
                           image := s.image : ShopRec }]
          (201,
            { db with
              users := db.users ++ [newUser]
              addresses := db.addresses ++ [newAddr]
              shops := db.shops ++ newShops
              nextAddressId := db.nextAddressId + 1 })

/-- Total quantity the `items` array orders against one product id:
the sum of the quantities of the line items referencing it. -/
def totalQty (its : List ReqItem) (pid : String) : Int :=
  (its.filter (fun it => it.id = pid)).foldr (fun it acc => it.quantity + acc) 0

/-- Each user has at most one address marked primary: two primary rows
with the same owner are the same row. -/
def PrimaryUnique (addrs : List AddressRec) : Prop :=
  ∀ a ∈ addrs, ∀ b ∈ addrs,
    a.isPrimary = true → b.isPrimary = true → a.userId = b.userId → a = b

instance (addrs : List AddressRec) : Decidable (PrimaryUnique addrs) := by
  unfold PrimaryUnique
  infer_instance

/-- Catalog product used by the concrete scenarios: stock 5, sold 0. -/
def shirt : Product :=
  { name := "Camisa"
    description := "Basica"
    price := 10
    stock := 5
    sold := 0
    category := "Roupas"
    image := "u"
    images := ["u"]
    variations := ""
    shopId := "s1" }

/-- Store holding exactly the product `p1` (the shirt) and nothing else. -/
def dbShirt : DB :=
  { products := fun k => if k = "p1" then some shirt else none
    orders := []
    orderItems := []
    addresses := []
    users := []
    shops := []
    nextOrderId := 0
    nextAddressId := 0 }

/-- Same store with the stock of `p1` lowered to 1. -/
def dbLow : DB :=
  { dbShirt with
    products := fun k => if k = "p1" then some { shirt with stock := 1 } else none }

/-- Line item fixture for the concrete scenarios. -/
def mkItem (pid : String) (q : Int) : ReqItem :=
  { id := pid, name := "Camisa", quantity := q, price := 10, image := "u" }

/-- Checkout request fixture around a given items field. -/
def reqOf (its : Option (List ReqItem)) : OrderReq :=
  { customerId := "c1"
    total := 30
    paymentMethod := "pix"
    addressId := "a1"
    items := its }

/-- Checkout request with a single line item: three units of `p1`. -/
def reqOne : OrderReq := reqOf (some [mkItem "p1" 3])

/-- Checkout request naming the product `p1` twice, one unit each. -/
def reqDup : OrderReq := reqOf (some [mkItem "p1" 1, mkItem "p1" 1])

/-- Address fixture: the primary address of user `u1`. -/
def addrA : AddressRec :=
  { id := 0
    userId := "u1"
    zipCode := "40000"
    street := "Rua A"
    number := "1"
    complement := ""
    neighborhood := "Centro"
    city := "Salvador"
    state := "BA"
    isPrimary := true }

/-- Store with one address row (the primary address of `u1`). -/
def dbAddr : DB := { dbShirt with addresses := [addrA], nextAddressId := 1 }

/-- Registration body fixture: the user part. -/
def uD : UserData :=
  { name := "Maria", email := "maria@x.com", password := "s", role := "" }

/-- Registration body fixture: the address part. -/
def aD : AddressData :=
  { cep := "43000", street := "Rua D", number := "4", complement := ""
    neighborhood := "Norte", city := "Salvador", state := "BA" }

theorem productStockUpdate_some (db : DB) (pid : String) (q : Int)
    (db1 : DB) (h : productStockUpdate db pid q = some db1) :
    ∃ p, db.products pid = some p ∧
      db1 = { db with products := fun k =>
        if k = pid then some { p with stock := p.stock - q, sold := p.sold + q }
        else db.products k } := by
  unfold productStockUpdate at h
  cases hp : db.products pid with
  | none => rw [hp] at h; simp at h
  | some p =>
    rw [hp] at h
    simp only [Option.map_some', Option.some.injEq] at h
    exact ⟨p, rfl, h.symm⟩

theorem updateAllStocks_frame (its : List ReqItem) (db db' : DB)
    (h : updateAllStocks db its = some db') :
    db'.orders = db.orders ∧ db'.orderItems = db.orderItems ∧
    db'.addresses = db.addresses ∧ db'.users = db.users ∧
    db'.shops = db.shops ∧ db'.nextOrderId = db.nextOrderId ∧
    db'.nextAddressId = db.nextAddressId := by
  induction its generalizing db with
  | nil =>
    unfold updateAllStocks at h
    cases h
    exact ⟨rfl, rfl, rfl, rfl, rfl, rfl, rfl⟩
  | cons hd tl ih =>
    unfold updateAllStocks at h
    cases hps : productStockUpdate db hd.id hd.quantity with
    | none => rw [hps] at h; simp at h
    | some db1 =>
      rw [hps, Option.some_bind] at h
      obtain ⟨p, _, hdb1⟩ := productStockUpdate_some db hd.id hd.quantity db1 hps
      subst hdb1
      have hh := ih _ h
      simpa using hh

theorem totalQty_cons (hd : ReqItem) (tl : List ReqItem) (pid : String) :
    totalQty (hd :: tl) pid =
      (if hd.id = pid then hd.quantity else 0) + totalQty tl pid := by
  unfold totalQty
  by_cases hid : hd.id = pid <;> simp [List.filter_cons, hid]

theorem updateAllStocks_delta (its : List ReqItem) (db db' : DB)
    (h : updateAllStocks db its = some db') (pid : String) :
    (db.products pid = none → db'.products pid = none) ∧
    (∀ p, db.products pid = some p →
      db'.products pid = some
        { p with stock := p.stock - totalQty its pid,
                 sold := p.sold + totalQty its pid }) := by
  induction its generalizing db with
  | nil =>
    unfold updateAllStocks at h
    cases h
    refine ⟨fun hn => hn, fun p hp => ?_⟩
    rw [hp]
    have h0 : totalQty [] pid = 0 := rfl
    rw [h0]
    congr 1
    cases p
    simp
  | cons hd tl ih =>
    unfold updateAllStocks at h
    cases hps : productStockUpdate db hd.id hd.quantity with
    | none => rw [hps] at h; simp at h
    | some db1 =>
      rw [hps, Option.some_bind] at h
      obtain ⟨q, hq, hdb1⟩ := productStockUpdate_some db hd.id hd.quantity db1 hps
      have ihh := ih db1 h
      constructor
      · intro hn
        have hne : pid ≠ hd.id := by
          intro heq; rw [heq, hq] at hn; cases hn
        apply ihh.1
        rw [hdb1]
        show (if pid = hd.id then _ else db.products pid) = none
        rw [if_neg hne]
        exact hn
      · intro p hp
        rw [totalQty_cons]
        by_cases heq : hd.id = pid
        · subst heq
          rw [hq] at hp
          injection hp with hqp
          have h1 : db1.products hd.id = some
              { q with stock := q.stock - hd.quantity,
                       sold := q.sold + hd.quantity } := by
            rw [hdb1]
            show (if hd.id = hd.id then _ else _) = _
            rw [if_pos rfl]
          have h2 := ihh.2 _ h1
          rw [h2, if_pos rfl, ← hqp]
          simp only [Option.some.injEq, Product.mk.injEq, true_and, and_true]
          omega
        · have h1 : db1.products pid = some p := by
            rw [hdb1]
            show (if pid = hd.id then _ else db.products pid) = some p
            rw [if_neg (fun hc => heq hc.symm)]
            exact hp
          rw [ihh.2 _ h1, if_neg heq, zero_add]

theorem updateAllStocks_fails (its : List ReqItem) (db : DB)
    (hmiss : ∃ it ∈ its, db.products it.id = none) :
    updateAllStocks db its = none := by
  induction its generalizing db with
  | nil => obtain ⟨it, hit, _⟩ := hmiss; cases hit
  | cons hd tl ih =>
    obtain ⟨it, hit, hnone⟩ := hmiss
    unfold updateAllStocks
    cases hps : productStockUpdate db hd.id hd.quantity with
    | none => rfl
    | some db1 =>
      rw [Option.some_bind]
      obtain ⟨p, hp, hdb1⟩ := productStockUpdate_some db hd.id hd.quantity db1 hps
      rcases List.mem_cons.mp hit with hhd | htl
      · subst hhd; rw [hp] at hnone; cases hnone
      · apply ih
        refine ⟨it, htl, ?_⟩
        rw [hdb1]
        have hne : it.id ≠ hd.id := by
          intro heq; rw [heq, hp] at hnone; cases hnone
        show (if it.id = hd.id then _ else db.products it.id) = none
        rw [if_neg hne]
        exact hnone

theorem updateAllStocks_succeeds (its : List ReqItem) (db : DB)
    (hall : ∀ it ∈ its, (db.products it.id).isSome) :
    ∃ db', updateAllStocks db its = some db' := by
  induction its generalizing db with
  | nil => exact ⟨db, rfl⟩
  | cons hd tl ih =>
    have hhd := hall hd (List.mem_cons_self hd tl)
    cases hps : productStockUpdate db hd.id hd.quantity with
    | none =>
      unfold productStockUpdate at hps
      cases hp : db.products hd.id with
      | none => rw [hp] at hhd; cases hhd
      | some p => rw [hp] at hps; simp at hps
    | some db1 =>
      obtain ⟨p, hp, hdb1⟩ := productStockUpdate_some db hd.id hd.quantity db1 hps
      obtain ⟨db', hdb'⟩ := ih db1 (fun it hit => by
        rw [hdb1]
        show ((if it.id = hd.id then _ else db.products it.id)).isSome = true
        by_cases heq : it.id = hd.id
        · rw [if_pos heq]; rfl
        · rw [if_neg heq]
          exact hall it (List.mem_cons_of_mem hd hit))
      refine ⟨db', ?_⟩
      unfold updateAllStocks
      rw [hps, Option.some_bind]
      exact hdb'

theorem placeOrderWeb_cases (db : DB) (req : OrderReq) :
    (∃ order db2, placeOrderTxBody db req = some (order, db2) ∧
      placeOrderWeb db req =
        { status := 201, body := .success order none, db := db2 }) ∨
    (placeOrderTxBody db req = none ∧
      placeOrderWeb db req =
        { status := 500
          body := .failure "Erro ao processar pagamento ou falta de estoque."
          db := db }) := by
  cases htx : placeOrderTxBody db req with
  | none =>
    refine Or.inr ⟨rfl, ?_⟩
    unfold placeOrderWeb
    rw [htx]
  | some x =>
    obtain ⟨o, d2⟩ := x
    refine Or.inl ⟨o, d2, rfl, ?_⟩
    unfold placeOrderWeb
    rw [htx]

theorem placeOrderTxBody_some (db : DB) (req : OrderReq)
    (order : OrderRec) (db2 : DB)
    (h : placeOrderTxBody db req = some (order, db2)) :
    ∃ its, req.items = some its ∧
      order = (orderCreate db req its).1 ∧
      updateAllStocks (orderCreate db req its).2.2 its = some db2 := by
  unfold placeOrderTxBody at h
  cases hits : req.items with
  | none => rw [hits, Option.none_bind] at h; cases h
  | some its =>
    rw [hits, Option.some_bind] at h
    cases hupd : updateAllStocks (orderCreate db req its).2.2 its with
    | none => rw [hupd] at h; cases h
    | some d2 =>
      rw [hupd, Option.map_some'] at h
      simp only [Option.some.injEq, Prod.mk.injEq] at h
      exact ⟨its, rfl, h.1.symm, by rw [hupd, h.2]⟩

theorem orderCreate_products (db : DB) (req : OrderReq)
    (its : List ReqItem) :
    (orderCreate db req its).2.2.products = db.products := rfl

theorem orderCreate_state (db : DB) (req : OrderReq) (its : List ReqItem) :
    (orderCreate db req its).2.2 =
      { db with
        orders := db.orders ++ [(orderCreate db req its).1]
        orderItems := db.orderItems ++ (orderCreate db req its).2.1
        nextOrderId := db.nextOrderId + 1 } := rfl

theorem orderCreate_items (db : DB) (req : OrderReq) (its : List ReqItem) :
    (orderCreate db req its).2.1 = its.map (fun it =>
      { orderId := db.nextOrderId
        productId := it.id
        name := it.name
        quantity := it.quantity
        price := it.price
        image := it.image : OrderItemRec }) := rfl

theorem updateAllStocks_isSome (its : List ReqItem) (db db' : DB)
    (h : updateAllStocks db its = some db') (pid : String) :
    (db'.products pid).isSome = (db.products pid).isSome := by
  cases hp : db.products pid with
  | none => rw [(updateAllStocks_delta its db db' h pid).1 hp]
  | some p => rw [(updateAllStocks_delta its db db' h pid).2 p hp]; rfl

theorem totalQty_nodup (its : List ReqItem)
    (hnd : (its.map ReqItem.id).Nodup) (it : ReqItem) (hit : it ∈ its) :
    totalQty its it.id = it.quantity := by
  induction its with
  | nil => cases hit
  | cons hd tl ih =>
    rw [totalQty_cons]
    rw [List.map_cons, List.nodup_cons] at hnd
    rcases List.mem_cons.mp hit with heq | htl
    · subst heq
      rw [if_pos rfl]
      have h0 : totalQty tl it.id = 0 := by
        unfold totalQty
        have hfil : tl.filter (fun x => x.id = it.id) = [] := by
          rw [List.filter_eq_nil_iff]
          intro a ha
          simp only [decide_eq_true_eq]
          intro heq2
          exact hnd.1 (List.mem_map.mpr ⟨a, ha, heq2⟩)
        rw [hfil]
        rfl
      rw [h0, add_zero]
    · have hne : hd.id ≠ it.id := fun heq =>
        hnd.1 (heq ▸ List.mem_map.mpr ⟨it, htl, rfl⟩)
      rw [if_neg hne, ih hnd.2 htl, zero_add]

theorem placeOrderWeb_of_update (db : DB) (req : OrderReq)
    (its : List ReqItem) (db2 : DB) (hits : req.items = some its)
    (hupd : updateAllStocks (orderCreate db req its).2.2 its = some db2) :
    placeOrderWeb db req =
      { status := 201
        body := .success (orderCreate db req its).1 none
        db := db2 } := by
  unfold placeOrderWeb placeOrderTxBody
  rw [hits, Option.some_bind, hupd, Option.map_some']

theorem clearPrimaries_mem (addrs : List AddressRec) (uid : String)
    (a : AddressRec) (ha : a ∈ clearPrimaries addrs uid)
    (hp : a.isPrimary = true) : a ∈ addrs ∧ a.userId ≠ uid := by
  unfold clearPrimaries at ha
  obtain ⟨b, hb, hba⟩ := List.mem_map.mp ha
  by_cases h : b.userId = uid
  · rw [if_pos h] at hba
    rw [← hba] at hp
    cases hp
  · rw [if_neg h] at hba
    subst hba
    exact ⟨hb, h⟩

theorem clearPrimaries_sub (addrs : List AddressRec) (uid : String)
    (a : AddressRec) (ha : a ∈ addrs) :
    (if a.userId = uid then { a with isPrimary := false } else a) ∈
      clearPrimaries addrs uid := by
  unfold clearPrimaries
  exact List.mem_map.mpr ⟨a, ha, rfl⟩

/-- C1: POST /orders (the transactional web handler) is atomic: whenever
the call does not answer 201 the database is exactly as it was before
the call, and in particular a line item referencing a product id absent
from the product store forces a 500 failure after which no order, line
item, or product mutation from the call is observable. -/
theorem placeOrder_rollback (db : DB) (req : OrderReq) :
    ((placeOrderWeb db req).status ≠ 201 → (placeOrderWeb db req).db = db) ∧
    (∀ its it, req.items = some its → it ∈ its → db.products it.id = none →
      (placeOrderWeb db req).status = 500 ∧ (placeOrderWeb db req).db = db) := by
  rcases placeOrderWeb_cases db req with ⟨o, d2, htx, heq⟩ | ⟨htx, heq⟩
  · constructor
    · intro hne
      exact absurd (by rw [heq]) hne
    · intro its it hits hit hmiss
      exfalso
      obtain ⟨its2, hits2, _, hupd⟩ := placeOrderTxBody_some db req o d2 htx
      rw [hits] at hits2
      injection hits2 with he
      rw [← he] at hupd
      have hfail := updateAllStocks_fails its (orderCreate db req its).2.2
        ⟨it, hit, by rw [orderCreate_products]; exact hmiss⟩
      rw [hfail] at hupd
      cases hupd
  · constructor
    · intro _
      rw [heq]
    · intro its it hits hit hmiss
      rw [heq]
      exact ⟨rfl, rfl⟩

/-- C1 witness: ordering the absent product id `zz` on the one-product
store answers 500 and leaves the store untouched. -/
theorem placeOrder_rollback_witness :
    (placeOrderWeb dbShirt (reqOf (some [mkItem "zz" 1]))).status = 500 ∧
    (placeOrderWeb dbShirt (reqOf (some [mkItem "zz" 1]))).db = dbShirt :=
  (placeOrder_rollback dbShirt (reqOf (some [mkItem "zz" 1]))).2
    [mkItem "zz" 1] (mkItem "zz" 1) rfl (by decide) (by decide)

/-- C2 counterexample: the per-line-item delta claim fails when one
product id occurs in two line items.  Starting from stock 5 and sold 0
with two quantity-1 items for `p1`, the call succeeds and leaves stock
3 and sold 2, while the claim demands stock 4 (= 5 - 1) and sold 1
(= 0 + 1) for each of the two line items. -/
theorem per_item_delta_cex :
    (placeOrderWeb dbShirt reqDup).status = 201 ∧
    ((placeOrderWeb dbShirt reqDup).db.products "p1").map Product.stock = some 3 ∧
    ((placeOrderWeb dbShirt reqDup).db.products "p1").map Product.stock ≠ some (5 - 1) ∧
    ((placeOrderWeb dbShirt reqDup).db.products "p1").map Product.sold = some 2 ∧
    ((placeOrderWeb dbShirt reqDup).db.products "p1").map Product.sold ≠ some (0 + 1) := by
  refine ⟨?_, ?_, ?_, ?_, ?_⟩ <;> decide

/-- C2 amended: for a successful call in which no two line items share a
product id, the referenced product row of every line item afterwards
has its stock lowered by exactly the item quantity and its sold counter
raised by the same amount (with a duplicated id the per-update deltas
accumulate instead, as the counterexample shows). -/
theorem stock_sold_delta_nodup (db : DB) (req : OrderReq)
    (its : List ReqItem) (it : ReqItem) (p : Product)
    (hits : req.items = some its)
    (hnd : (its.map ReqItem.id).Nodup)
    (hit : it ∈ its)
    (h201 : (placeOrderWeb db req).status = 201)
    (hp : db.products it.id = some p) :
    (placeOrderWeb db req).db.products it.id =
      some { p with stock := p.stock - it.quantity,
                    sold := p.sold + it.quantity } := by
  rcases placeOrderWeb_cases db req with ⟨o, d2, htx, heq⟩ | ⟨htx, heq⟩
  · obtain ⟨its2, hits2, _, hupd⟩ := placeOrderTxBody_some db req o d2 htx
    rw [hits] at hits2
    injection hits2 with he
    rw [← he] at hupd
    have hdelta := (updateAllStocks_delta its _ d2 hupd it.id).2 p
      (by rw [orderCreate_products]; exact hp)
    rw [heq]
    show d2.products it.id = _
    rw [hdelta, totalQty_nodup its hnd it hit]
  · rw [heq] at h201
    simp at h201

/-- C2 amended witness: three units of `p1` against stock 5 leave the
row with stock 2 and sold 3. -/
theorem stock_sold_delta_nodup_witness :
    (placeOrderWeb dbShirt reqOne).db.products (mkItem "p1" 3).id =
      some { shirt with stock := shirt.stock - (mkItem "p1" 3).quantity,
                        sold := shirt.sold + (mkItem "p1" 3).quantity } :=
  stock_sold_delta_nodup dbShirt reqOne [mkItem "p1" 3] (mkItem "p1" 3)
    shirt rfl (by decide) (by decide) (by decide) (by decide)

/-- C3 (code bug): the handler performs no validation of the line-item
collection.  With `items = []` it answers 201 and persists an order row
owning zero line items, violating both the reject-before-persistence
claim and the order-owns-a-line-item invariant; a missing items field,
by contrast, throws at `items.map` and yields a 500 with no mutation. -/
theorem placeOrder_empty_items_creates_order :
    (placeOrderWeb dbShirt (reqOf (some []))).status = 201 ∧
    (placeOrderWeb dbShirt (reqOf (some []))).db.orders.length = 1 ∧
    (placeOrderWeb dbShirt (reqOf (some []))).db.orderItems = [] ∧
    (placeOrderWeb dbShirt (reqOf none)).status = 500 ∧
    (placeOrderWeb dbShirt (reqOf none)).db.orders = [] := by
  refine ⟨?_, ?_, ?_, ?_, ?_⟩ <;> decide

/-- C4 counterexample: the handler checks nothing against the available
stock, so with stock 1 and a single quantity-2 line item the call
succeeds and drives the stock of `p1` to -1. -/
theorem stock_goes_negative_cex :
    (placeOrderWeb dbLow (reqOf (some [mkItem "p1" 2]))).status = 201 ∧
    ((placeOrderWeb dbLow (reqOf (some [mkItem "p1" 2]))).db.products "p1").map
      Product.stock = some (-1) := by
  exact ⟨by decide, by decide⟩

/-- C4 amended: the stock of a product stays non-negative exactly under
a cover hypothesis the code does not enforce: when the prior stock of
the product is non-negative and at least the total quantity the request
orders against it, the row afterwards has non-negative stock (on
failure the store is unchanged, so the bound holds there too). -/
theorem stock_nonneg_under_cover (db : DB) (req : OrderReq)
    (its : List ReqItem) (pid : String) (p p' : Product)
    (hits : req.items = some its)
    (hp : db.products pid = some p) (h0 : 0 ≤ p.stock)
    (hcov : totalQty its pid ≤ p.stock)
    (hp' : (placeOrderWeb db req).db.products pid = some p') :
    0 ≤ p'.stock := by
  rcases placeOrderWeb_cases db req with ⟨o, d2, htx, heq⟩ | ⟨htx, heq⟩
  · obtain ⟨its2, hits2, _, hupd⟩ := placeOrderTxBody_some db req o d2 htx
    rw [hits] at hits2
    injection hits2 with he
    rw [← he] at hupd
    have hdelta := (updateAllStocks_delta its _ d2 hupd pid).2 p
      (by rw [orderCreate_products]; exact hp)
    rw [heq] at hp'
    show 0 ≤ p'.stock
    have hp'2 : p' = { p with stock := p.stock - totalQty its pid,
                              sold := p.sold + totalQty its pid } := by
      have : d2.products pid = some p' := hp'
      rw [hdelta] at this
      injection this with hq
      exact hq.symm
    rw [hp'2]
    show 0 ≤ p.stock - totalQty its pid
    omega
  · rw [heq] at hp'
    have hpp : p' = p := by
      have : db.products pid = some p' := hp'
      rw [hp] at this
      injection this with hq
      exact hq.symm
    rw [hpp]
    exact h0

/-- C4 amended witness: three units against stock 5 leave stock 2 ≥ 0. -/
theorem stock_nonneg_under_cover_witness :
    0 ≤ ({ shirt with stock := 2, sold := 3 } : Product).stock :=
  stock_nonneg_under_cover dbShirt reqOne [mkItem "p1" 3] "p1" shirt
    { shirt with stock := 2, sold := 3 } rfl (by decide) (by decide)
    (by decide) (by decide)

/-- C5: a successful checkout appends to the order-item table exactly
one row per input line item, each carrying the caller-supplied snapshot
name, price and image (never values re-read from the product row); and
a later catalog edit of any product leaves the persisted order and
order-item tables unchanged. -/
theorem placeOrder_snapshot_items (db : DB) (req : OrderReq)
    (its : List ReqItem) (hits : req.items = some its)
    (h201 : (placeOrderWeb db req).status = 201) :
    (placeOrderWeb db req).db.orderItems = db.orderItems ++ its.map (fun it =>
      { orderId := db.nextOrderId
        productId := it.id
        name := it.name
        quantity := it.quantity
        price := it.price
        image := it.image : OrderItemRec }) ∧
    (placeOrderWeb db req).db.orderItems.length = db.orderItems.length + its.length ∧
    (∀ pid nm ds pr st cat imgs vars,
      (productCatalogUpdate (placeOrderWeb db req).db pid nm ds pr st cat
        imgs vars).2.orderItems = (placeOrderWeb db req).db.orderItems ∧
      (productCatalogUpdate (placeOrderWeb db req).db pid nm ds pr st cat
        imgs vars).2.orders = (placeOrderWeb db req).db.orders) := by
  have hcat : ∀ (db0 : DB) pid nm ds pr st cat imgs vars,
      (productCatalogUpdate db0 pid nm ds pr st cat imgs vars).2.orderItems =
        db0.orderItems ∧
      (productCatalogUpdate db0 pid nm ds pr st cat imgs vars).2.orders =
        db0.orders := by
    intro db0 pid nm ds pr st cat imgs vars
    cases hc : db0.products pid with
    | none => unfold productCatalogUpdate; rw [hc]; exact ⟨rfl, rfl⟩
    | some q => unfold productCatalogUpdate; rw [hc]; exact ⟨rfl, rfl⟩
  rcases placeOrderWeb_cases db req with ⟨o, d2, htx, heq⟩ | ⟨htx, heq⟩
  · obtain ⟨its2, hits2, _, hupd⟩ := placeOrderTxBody_some db req o d2 htx
    rw [hits] at hits2
    injection hits2 with he
    rw [← he] at hupd
    have hframe := updateAllStocks_frame its _ d2 hupd
    have hoi : d2.orderItems = db.orderItems ++ its.map (fun it =>
        { orderId := db.nextOrderId
          productId := it.id
          name := it.name
          quantity := it.quantity
          price := it.price
          image := it.image : OrderItemRec }) := by
      rw [hframe.2.1]
      rfl
    refine ⟨?_, ?_, fun pid nm ds pr st cat imgs vars =>
      hcat (placeOrderWeb db req).db pid nm ds pr st cat imgs vars⟩
    · rw [heq]
      exact hoi
    · rw [heq]
      show d2.orderItems.length = db.orderItems.length + its.length
      rw [hoi, List.length_append, List.length_map]
  · rw [heq] at h201
    simp at h201

/-- C5 witness: the single line item of the concrete request is
persisted verbatim, and a catalog edit of `p1` afterwards leaves the
order-item table unchanged. -/
theorem placeOrder_snapshot_items_witness :
    (placeOrderWeb dbShirt reqOne).db.orderItems =
      [{ orderId := 0, productId := "p1", name := "Camisa", quantity := 3,
         price := 10, image := "u" }] ∧
    (productCatalogUpdate (placeOrderWeb dbShirt reqOne).db "p1" "X" "Y"
      99 50 "Z" [] "").2.orderItems =
      (placeOrderWeb dbShirt reqOne).db.orderItems := by
  have h := placeOrder_snapshot_items dbShirt reqOne [mkItem "p1" 3] rfl (by decide)
  exact ⟨by rw [h.1]; rfl, (h.2.2 "p1" "X" "Y" 99 50 "Z" [] "").1⟩

/-- C6 counterexample: the transactional handler's create call has no
include clause, so the 201 body carries the order row with no nested
line items, even though one line-item row was persisted by the call. -/
theorem response_lacks_items_cex :
    (placeOrderWeb dbShirt reqOne).status = 201 ∧
    (placeOrderWeb dbShirt reqOne).body =
      .success { id := 0, customerId := "c1", total := 30,
                 paymentMethod := "pix", addressId := "a1",
                 status := "A Enviar" } none ∧
    (placeOrderWeb dbShirt reqOne).db.orderItems.length = 1 := by
  refine ⟨?_, ?_, ?_⟩ <;> decide

/-- C6 amended: on success the handler answers 201 whose body is the
persisted order row — present in the order table and carrying the
generated identifier — but without the nested line items, since the
create call lacks an include clause. -/
theorem response_order_no_items (db : DB) (req : OrderReq)
    (its : List ReqItem) (hits : req.items = some its)
    (h201 : (placeOrderWeb db req).status = 201) :
    (placeOrderWeb db req).body =
      .success (orderCreate db req its).1 none ∧
    (orderCreate db req its).1 ∈ (placeOrderWeb db req).db.orders ∧
    ((orderCreate db req its).1).id = db.nextOrderId := by
  rcases placeOrderWeb_cases db req with ⟨o, d2, htx, heq⟩ | ⟨htx, heq⟩
  · obtain ⟨its2, hits2, ho, hupd⟩ := placeOrderTxBody_some db req o d2 htx
    rw [hits] at hits2
    injection hits2 with he
    rw [← he] at hupd
    rw [← he] at ho
    have hframe := updateAllStocks_frame its _ d2 hupd
    refine ⟨?_, ?_, rfl⟩
    · rw [heq, ho]
    · rw [heq]
      show (orderCreate db req its).1 ∈ d2.orders
      rw [hframe.1]
      show (orderCreate db req its).1 ∈ db.orders ++ [(orderCreate db req its).1]
      exact List.mem_append_right _ (List.mem_singleton.mpr rfl)
  · rw [heq] at h201
    simp at h201

/-- C6 amended witness: the concrete successful call answers with the
order row and no nested items. -/
theorem response_order_no_items_witness :
    (placeOrderWeb dbShirt reqOne).body =
      .success (orderCreate dbShirt reqOne [mkItem "p1" 3]).1 none ∧
    (orderCreate dbShirt reqOne [mkItem "p1" 3]).1 ∈
      (placeOrderWeb dbShirt reqOne).db.orders ∧
    ((orderCreate dbShirt reqOne [mkItem "p1" 3]).1).id = dbShirt.nextOrderId :=
  response_order_no_items dbShirt reqOne [mkItem "p1" 3] rfl (by decide)

/-- C7: PlaceOrder is not idempotent: submitting the same payload twice
succeeds twice, appends two order rows with distinct generated
identifiers, and applies each per-product stock/sold delta twice, once
per submission. -/
theorem placeOrder_not_idempotent (db : DB) (req : OrderReq)
    (its : List ReqItem) (hits : req.items = some its)
    (hall : ∀ it ∈ its, (db.products it.id).isSome = true) :
    (placeOrderWeb db req).status = 201 ∧
    (placeOrderWeb (placeOrderWeb db req).db req).status = 201 ∧
    (placeOrderWeb (placeOrderWeb db req).db req).db.orders =
      db.orders ++ [(orderCreate db req its).1,
        (orderCreate (placeOrderWeb db req).db req its).1] ∧
    ((orderCreate db req its).1).id ≠
      ((orderCreate (placeOrderWeb db req).db req its).1).id ∧
    (∀ pid p, db.products pid = some p →
      (placeOrderWeb (placeOrderWeb db req).db req).db.products pid =
        some { p with
          stock := p.stock - (totalQty its pid + totalQty its pid)
          sold := p.sold + (totalQty its pid + totalQty its pid) }) := by
  obtain ⟨db2, hupd1⟩ := updateAllStocks_succeeds its (orderCreate db req its).2.2
    (fun it hit => by rw [orderCreate_products]; exact hall it hit)
  have heq1 := placeOrderWeb_of_update db req its db2 hits hupd1
  have hall2 : ∀ it ∈ its, (db2.products it.id).isSome = true := fun it hit => by
    rw [updateAllStocks_isSome its _ db2 hupd1 it.id, orderCreate_products]
    exact hall it hit
  obtain ⟨db3, hupd2⟩ := updateAllStocks_succeeds its (orderCreate db2 req its).2.2
    (fun it hit => by rw [orderCreate_products]; exact hall2 it hit)
  have heq2 := placeOrderWeb_of_update db2 req its db3 hits hupd2
  have hframe1 := updateAllStocks_frame its _ db2 hupd1
  have hframe2 := updateAllStocks_frame its _ db3 hupd2
  refine ⟨by rw [heq1], ?_, ?_, ?_, ?_⟩
  · rw [heq1]
    show (placeOrderWeb db2 req).status = 201
    rw [heq2]
  · rw [heq1]
    show (placeOrderWeb db2 req).db.orders =
      db.orders ++ [(orderCreate db req its).1, (orderCreate db2 req its).1]
    rw [heq2]
    show db3.orders = _
    rw [hframe2.1]
    show db2.orders ++ [(orderCreate db2 req its).1] = _
    rw [hframe1.1]
    show (db.orders ++ [(orderCreate db req its).1]) ++
      [(orderCreate db2 req its).1] = _
    rw [List.append_assoc]
    rfl
  · rw [heq1]
    show db.nextOrderId ≠ db2.nextOrderId
    rw [hframe1.2.2.2.2.2.1]
    show db.nextOrderId ≠ db.nextOrderId + 1
    omega
  · intro pid p hp
    rw [heq1]
    show (placeOrderWeb db2 req).db.products pid = _
    rw [heq2]
    show db3.products pid = _
    have hd1 := (updateAllStocks_delta its _ db2 hupd1 pid).2 p
      (by rw [orderCreate_products]; exact hp)
    have hd2 := (updateAllStocks_delta its _ db3 hupd2 pid).2 _
      (by rw [orderCreate_products]; exact hd1)
    rw [hd2]
    simp only [Option.some.injEq, Product.mk.injEq, true_and, and_true]
    constructor <;> omega

/-- C7 witness: two identical submissions on the one-product store both
succeed, create orders with distinct ids, and decrement `p1` twice. -/
theorem placeOrder_not_idempotent_witness :
    (placeOrderWeb (placeOrderWeb dbShirt reqOne).db reqOne).status = 201 ∧
    ((orderCreate dbShirt reqOne [mkItem "p1" 3]).1).id ≠
      ((orderCreate (placeOrderWeb dbShirt reqOne).db reqOne
        [mkItem "p1" 3]).1).id ∧
    (placeOrderWeb (placeOrderWeb dbShirt reqOne).db reqOne).db.products "p1" =
      some { shirt with
        stock := shirt.stock -
          (totalQty [mkItem "p1" 3] "p1" + totalQty [mkItem "p1" 3] "p1")
        sold := shirt.sold +
          (totalQty [mkItem "p1" 3] "p1" + totalQty [mkItem "p1" 3] "p1") } := by
  have h := placeOrder_not_idempotent dbShirt reqOne [mkItem "p1" 3] rfl (by decide)
  exact ⟨h.2.1, h.2.2.2.1, h.2.2.2.2 "p1" shirt (by decide)⟩

/-- C9: the mobile checkout handler creates the order together with its
line items and answers with them included, but leaves the product table
untouched for every request; the transactional web handler, on a
successful call, rewrites the referenced product row of every line item
with the stock/sold deltas. -/
theorem mobile_checkout_products_frame (db : DB) (req : OrderReq) :
    (placeOrderMobile db req).db.products = db.products ∧
    (∀ its, req.items = some its →
      (placeOrderMobile db req).status = 201 ∧
      (placeOrderMobile db req).body =
        .success (orderCreate db req its).1 (some (orderCreate db req its).2.1) ∧
      (placeOrderMobile db req).db.orderItems =
        db.orderItems ++ (orderCreate db req its).2.1) ∧
    (∀ its it p, req.items = some its → it ∈ its →
      (placeOrderWeb db req).status = 201 → db.products it.id = some p →
      (placeOrderWeb db req).db.products it.id =
        some { p with stock := p.stock - totalQty its it.id,
                      sold := p.sold + totalQty its it.id }) := by
  refine ⟨?_, ?_, ?_⟩
  · unfold placeOrderMobile
    cases req.items with
    | none => rfl
    | some its => rfl
  · intro its hits
    unfold placeOrderMobile
    rw [hits]
    exact ⟨rfl, rfl, rfl⟩
  · intro its it p hits hit h201 hp
    rcases placeOrderWeb_cases db req with ⟨o, d2, htx, heq⟩ | ⟨htx, heq⟩
    · obtain ⟨its2, hits2, _, hupd⟩ := placeOrderTxBody_some db req o d2 htx
      rw [hits] at hits2
      injection hits2 with he
      rw [← he] at hupd
      have hdelta := (updateAllStocks_delta its _ d2 hupd it.id).2 p
        (by rw [orderCreate_products]; exact hp)
      rw [heq]
      exact hdelta
    · rw [heq] at h201
      simp at h201

/-- C9 witness: on the concrete request the mobile handler leaves the
product map untouched and answers with the created items included,
while the web handler rewrites the row of `p1`. -/
theorem mobile_checkout_products_frame_witness :
    (placeOrderMobile dbShirt reqOne).db.products = dbShirt.products ∧
    (placeOrderMobile dbShirt reqOne).body =
      .success (orderCreate dbShirt reqOne [mkItem "p1" 3]).1
        (some (orderCreate dbShirt reqOne [mkItem "p1" 3]).2.1) ∧
    (placeOrderWeb dbShirt reqOne).db.products (mkItem "p1" 3).id =
      some { shirt with
        stock := shirt.stock - totalQty [mkItem "p1" 3] (mkItem "p1" 3).id
        sold := shirt.sold + totalQty [mkItem "p1" 3] (mkItem "p1" 3).id } := by
  have h := mobile_checkout_products_frame dbShirt reqOne
  exact ⟨h.1, (h.2.1 [mkItem "p1" 3] rfl).2.1,
    h.2.2 [mkItem "p1" 3] (mkItem "p1" 3) shirt rfl (by decide) (by decide)
      (by decide)⟩

theorem clearPrimaries_shape (addrs : List AddressRec) (uid : String)
    (a : AddressRec) (ha : a ∈ clearPrimaries addrs uid) :
    ∃ a0 ∈ addrs, a.id = a0.id ∧ a.userId = a0.userId := by
  unfold clearPrimaries at ha
  obtain ⟨b, hb, hba⟩ := List.mem_map.mp ha
  by_cases h : b.userId = uid
  · rw [if_pos h] at hba
    subst hba
    exact ⟨b, hb, rfl, rfl⟩
  · rw [if_neg h] at hba
    subst hba
    exact ⟨b, hb, rfl, rfl⟩

theorem clearPrimaries_primaryUnique (addrs : List AddressRec) (uid : String)
    (hinv : PrimaryUnique addrs) : PrimaryUnique (clearPrimaries addrs uid) := by
  intro a ha b hb hpa hpb huv
  obtain ⟨ha0, _⟩ := clearPrimaries_mem addrs uid a ha hpa
  obtain ⟨hb0, _⟩ := clearPrimaries_mem addrs uid b hb hpb
  exact hinv a ha0 b hb0 hpa hpb huv

theorem primaryUnique_clear_append (addrs : List AddressRec) (uid : String)
    (newAddr : AddressRec) (hnew : newAddr.userId = uid)
    (hinv : PrimaryUnique addrs) :
    PrimaryUnique (clearPrimaries addrs uid ++ [newAddr]) := by
  intro a ha b hb hpa hpb huv
  rcases List.mem_append.mp ha with ha1 | ha2
  · rcases List.mem_append.mp hb with hb1 | hb2
    · obtain ⟨ha0, _⟩ := clearPrimaries_mem addrs uid a ha1 hpa
      obtain ⟨hb0, _⟩ := clearPrimaries_mem addrs uid b hb1 hpb
      exact hinv a ha0 b hb0 hpa hpb huv
    · obtain ⟨_, hane⟩ := clearPrimaries_mem addrs uid a ha1 hpa
      rw [List.mem_singleton] at hb2
      subst hb2
      exact absurd (huv.trans hnew) hane
  · rw [List.mem_singleton] at ha2
    subst ha2
    rcases List.mem_append.mp hb with hb1 | hb2
    · obtain ⟨_, hbne⟩ := clearPrimaries_mem addrs uid b hb1 hpb
      exact absurd (huv.symm.trans hnew) hbne
    · rw [List.mem_singleton] at hb2
      rw [hb2]

theorem primaryUnique_append_nonprimary (addrs : List AddressRec)
    (newAddr : AddressRec) (hnew : newAddr.isPrimary = false)
    (hinv : PrimaryUnique addrs) :
    PrimaryUnique (addrs ++ [newAddr]) := by
  intro a ha b hb hpa hpb huv
  rcases List.mem_append.mp ha with ha1 | ha2
  · rcases List.mem_append.mp hb with hb1 | hb2
    · exact hinv a ha1 b hb1 hpa hpb huv
    · rw [List.mem_singleton] at hb2
      subst hb2
      rw [hnew] at hpb
      cases hpb
  · rw [List.mem_singleton] at ha2
    subst ha2
    rw [hnew] at hpa
    cases hpa

theorem primaryUnique_map_set_primary (addrs : List AddressRec) (id : Nat)
    (uid zipCode street number complement neighborhood city state : String)
    (hinv : PrimaryUnique addrs)
    (hmatch : ∀ a ∈ addrs, a.id = id → a.userId = uid)
    (hnoprim : ∀ a ∈ addrs, a.isPrimary = true → a.userId ≠ uid) :
    PrimaryUnique (addrs.map fun a =>
      if a.id = id then
        { a with zipCode := zipCode, street := street, number := number,
                 complement := complement, neighborhood := neighborhood,
                 city := city, state := state, isPrimary := true }
      else a) := by
  intro x hx y hy hpx hpy huv
  obtain ⟨a, ha, hax⟩ := List.mem_map.mp hx
  obtain ⟨b, hb, hby⟩ := List.mem_map.mp hy
  by_cases hai : a.id = id <;> by_cases hbi : b.id = id
  · rw [if_pos hai] at hax
    rw [if_pos hbi] at hby
    subst hax
    subst hby
    have hau := hmatch a ha hai
    have hbu := hmatch b hb hbi
    simp only [AddressRec.mk.injEq, and_true, true_and]
    exact ⟨hai.trans hbi.symm, hau.trans hbu.symm⟩
  · rw [if_pos hai] at hax
    rw [if_neg hbi] at hby
    subst hax
    subst hby
    have hau := hmatch a ha hai
    have hbu := hnoprim b hb hpy
    exact absurd (huv.symm.trans hau) hbu
  · rw [if_neg hai] at hax
    rw [if_pos hbi] at hby
    subst hax
    subst hby
    have hbu := hmatch b hb hbi
    have hau := hnoprim a ha hpx
    exact absurd (huv.trans hbu) hau
  · rw [if_neg hai] at hax
    rw [if_neg hbi] at hby
    subst hax
    subst hby
    exact hinv a ha b hb hpx hpy huv

theorem primaryUnique_map_set_false (addrs : List AddressRec) (id : Nat)
    (zipCode street number complement neighborhood city state : String)
    (hinv : PrimaryUnique addrs) :
    PrimaryUnique (addrs.map fun a =>
      if a.id = id then
        { a with zipCode := zipCode, street := street, number := number,
                 complement := complement, neighborhood := neighborhood,
                 city := city, state := state, isPrimary := false }
      else a) := by
  intro x hx y hy hpx hpy huv
  obtain ⟨a, ha, hax⟩ := List.mem_map.mp hx
  obtain ⟨b, hb, hby⟩ := List.mem_map.mp hy
  by_cases hai : a.id = id
  · rw [if_pos hai] at hax
    rw [← hax] at hpx
    simp at hpx
  · by_cases hbi : b.id = id
    · rw [if_pos hbi] at hby
      rw [← hby] at hpy
      simp at hpy
    · rw [if_neg hai] at hax
      rw [if_neg hbi] at hby
      subst hax
      subst hby
      exact hinv a ha b hb hpx hpy huv

theorem postAddress_primaryUnique (db : DB) (userId zipCode street number
    complement neighborhood city state : String) (isPrimary : Bool)
    (hinv : PrimaryUnique db.addresses) :
    PrimaryUnique (postAddress db userId zipCode street number complement
      neighborhood city state isPrimary).2.addresses := by
  cases isPrimary with
  | true => exact primaryUnique_clear_append db.addresses userId _ rfl hinv
  | false => exact primaryUnique_append_nonprimary db.addresses _ rfl hinv

theorem putAddress_primaryUnique (db : DB) (id : Nat)
    (zipCode street number complement neighborhood city state : String)
    (isPrimary : Bool) (userId : String)
    (hinv : PrimaryUnique db.addresses)
    (howner : ∀ a ∈ db.addresses, a.id = id → a.userId = userId) :
    PrimaryUnique (putAddress db id zipCode street number complement
      neighborhood city state isPrimary userId).2.addresses := by
  cases isPrimary with
  | true =>
    have hclinv := clearPrimaries_primaryUnique db.addresses userId hinv
    have hmatch : ∀ a ∈ clearPrimaries db.addresses userId,
        a.id = id → a.userId = userId := by
      intro a ha hid
      obtain ⟨a0, ha0, hid0, huid0⟩ := clearPrimaries_shape db.addresses userId a ha
      rw [huid0]
      exact howner a0 ha0 (hid0 ▸ hid)
    have hnoprim : ∀ a ∈ clearPrimaries db.addresses userId,
        a.isPrimary = true → a.userId ≠ userId :=
      fun a ha hp => (clearPrimaries_mem db.addresses userId a ha hp).2
    show PrimaryUnique (addressUpdate
      { db with addresses := clearPrimaries db.addresses userId } id zipCode
      street number complement neighborhood city state true).2.addresses
    unfold addressUpdate
    by_cases hany : (({ db with addresses := clearPrimaries db.addresses userId } :
        DB).addresses.any (fun a => a.id = id)) = true
    · rw [if_pos hany]
      exact primaryUnique_map_set_primary _ id userId zipCode street number
        complement neighborhood city state hclinv hmatch hnoprim
    · rw [if_neg hany]
      exact hclinv
  | false =>
    show PrimaryUnique (addressUpdate db id zipCode street number complement
      neighborhood city state false).2.addresses
    unfold addressUpdate
    by_cases hany : (db.addresses.any (fun a => a.id = id)) = true
    · rw [if_pos hany]
      exact primaryUnique_map_set_false db.addresses id zipCode street number
        complement neighborhood city state hinv
    · rw [if_neg hany]
      exact hinv

theorem registerUser_primaryUnique (db : DB) (uid : String)
    (u : UserData) (a : AddressData) (s : Option ShopData)
    (hinv : PrimaryUnique db.addresses)
    (hfresh : ∀ x ∈ db.addresses, x.userId ≠ uid) :
    PrimaryUnique (registerUser db uid (some u) (some a) s).2.addresses ∧
    ((registerUser db uid (some u) (some a) s).1 = 201 →
      (registerUser db uid (some u) (some a) s).2.addresses.filter
        (fun x => x.userId = uid) =
        [{ id := db.nextAddressId, userId := uid, zipCode := a.cep,
           street := a.street, number := a.number,
           complement := a.complement, neighborhood := a.neighborhood,
           city := a.city, state := a.state, isPrimary := true }]) := by
  simp only [registerUser]
  by_cases hname : u.name = ""
  · rw [if_pos hname]
    exact ⟨hinv, fun h => by simp at h⟩
  · rw [if_neg hname]
    by_cases hemail : (db.users.any (fun w => w.email = u.email)) = true
    · rw [if_pos hemail]
      exact ⟨hinv, fun h => by simp at h⟩
    · rw [if_neg hemail]
      constructor
      · intro x hx y hy hpx hpy huv
        rcases List.mem_append.mp hx with hx1 | hx2
        · rcases List.mem_append.mp hy with hy1 | hy2
          · exact hinv x hx1 y hy1 hpx hpy huv
          · rw [List.mem_singleton] at hy2
            subst hy2
            exact absurd huv (hfresh x hx1)
        · rw [List.mem_singleton] at hx2
          subst hx2
          rcases List.mem_append.mp hy with hy1 | hy2
          · exact absurd huv.symm (hfresh y hy1)
          · rw [List.mem_singleton] at hy2
            rw [hy2]
      · intro _
        show (db.addresses ++
          [{ id := db.nextAddressId, userId := uid, zipCode := a.cep,
             street := a.street, number := a.number,
             complement := a.complement, neighborhood := a.neighborhood,
             city := a.city, state := a.state,
             isPrimary := true : AddressRec }]).filter
          (fun x => x.userId = uid) = _
        rw [List.filter_append]
        have h1 : db.addresses.filter (fun x => decide (x.userId = uid)) = [] := by
          rw [List.filter_eq_nil_iff]
          intro x hx
          simp only [decide_eq_true_eq]
          exact hfresh x hx
        rw [h1]
        simp

/-- C10: every address-writing operation preserves the invariant that
each user has at most one primary address.  POST /addresses clears the
body user's primaries before inserting a primary row and inserts a
non-primary row otherwise; PUT /addresses/:id does the same provided
the body userId is the owner of the target row; POST /auth/register
creates, for a fresh user id, exactly one address row, marked
primary. -/
theorem address_routes_primary_unique (db : DB) :
    (∀ userId zipCode street number complement neighborhood city state
        isPrimary,
      PrimaryUnique db.addresses →
      PrimaryUnique (postAddress db userId zipCode street number complement
        neighborhood city state isPrimary).2.addresses) ∧
    (∀ id zipCode street number complement neighborhood city state isPrimary
        userId,
      PrimaryUnique db.addresses →
      (∀ a ∈ db.addresses, a.id = id → a.userId = userId) →
      PrimaryUnique (putAddress db id zipCode street number complement
        neighborhood city state isPrimary userId).2.addresses) ∧
    (∀ uid u a s,
      PrimaryUnique db.addresses →
      (∀ x ∈ db.addresses, x.userId ≠ uid) →
      PrimaryUnique (registerUser db uid (some u) (some a) s).2.addresses ∧
      ((registerUser db uid (some u) (some a) s).1 = 201 →
        (registerUser db uid (some u) (some a) s).2.addresses.filter
          (fun x => x.userId = uid) =
          [{ id := db.nextAddressId, userId := uid, zipCode := a.cep,
             street := a.street, number := a.number,
             complement := a.complement, neighborhood := a.neighborhood,
             city := a.city, state := a.state, isPrimary := true }])) :=
  ⟨fun userId z st n c nb ci sa isP hinv =>
      postAddress_primaryUnique db userId z st n c nb ci sa isP hinv,
   fun id z st n c nb ci sa isP userId hinv howner =>
      putAddress_primaryUnique db id z st n c nb ci sa isP userId hinv howner,
   fun uid u a s hinv hfresh =>
      registerUser_primaryUnique db uid u a s hinv hfresh⟩

/-- C10 witness: on the store holding one primary address of `u1`, a
new primary address for `u1`, a primary rewrite of row 0 for `u1`, and
the registration of a fresh user `u2` each preserve the at-most-one
primary invariant, and the registration leaves exactly one (primary)
address row for `u2`. -/
theorem address_routes_primary_unique_witness :
    PrimaryUnique (postAddress dbAddr "u1" "41000" "Rua B" "2" "" "Boca"
      "Salvador" "BA" true).2.addresses ∧
    PrimaryUnique (putAddress dbAddr 0 "42000" "Rua C" "3" "" "Rio"
      "Salvador" "BA" true "u1").2.addresses ∧
    PrimaryUnique (registerUser dbAddr "u2" (some uD) (some aD)
      none).2.addresses ∧
    ((registerUser dbAddr "u2" (some uD) (some aD) none).1 = 201 →
      (registerUser dbAddr "u2" (some uD) (some aD) none).2.addresses.filter
        (fun x => x.userId = "u2") =
        [{ id := dbAddr.nextAddressId, userId := "u2", zipCode := aD.cep,
           street := aD.street, number := aD.number,
           complement := aD.complement, neighborhood := aD.neighborhood,
           city := aD.city, state := aD.state, isPrimary := true }]) := by
  have h := address_routes_primary_unique dbAddr
  have hreg := h.2.2 "u2" uD aD none (by decide) (by decide)
  exact ⟨h.1 "u1" "41000" "Rua B" "2" "" "Boca" "Salvador" "BA" true
      (by decide),
    h.2.1 0 "42000" "Rua C" "3" "" "Rio" "Salvador" "BA" true "u1"
      (by decide) (by decide),
    hreg.1, hreg.2⟩

end Insinuante
